import Mathlib

/-!
Verification of the memdb in-memory relational database engine.

This file gives a shallow embedding of the core of the engine - the tuple
codec, the storage manager, the expression parser, the type checker, the
translator, and the filter and inner-join operators - and proves or refutes
the frozen specification claims about them.

Modelling conventions:
  - Rust `String` values are modelled by their UTF-8 byte sequences
    (`List Nat`); the UTF-8 validity invariant is implicit and the
    `String::from_utf8` re-validation performed by the decoder is elided
    (it always succeeds on bytes produced from a Rust `String`).
  - machine integers are `Int`/`Nat` with explicit `% 2 ^ w` where the code
    casts (`as u32`); `i32` ranges appear as hypotheses where needed.
  - a Rust panic (`unreachable!`, `expect`, slice out of bounds, failed
    `assert_eq!`) is modelled as a distinguished `none` / `panicked` result.
  - a `HashMap` built by `collect`/`extend` is modelled as the association
    list of insertions, looked up with last-insertion-wins semantics
    (`hmGet`); iteration order of a `HashMap` is NOT modelled as the list
    order, because Rust does not guarantee any order (see the claims about
    scan ordering, where this matters).
-/

namespace MemDB

/-- Rust `String`, modelled as its UTF-8 byte sequence. -/
abbrev RustString := List Nat

/-- storage/storage_manager.rs: `AttributeName(pub String)`. -/
abbrev AttributeName := RustString

/-- Modelled from the spec: attribute type is one of Integer, Text, Boolean
(the file `src/storage/types.rs` declaring this enum is not in the source
tree; only its users are). -/
inductive AttributeType where
  | Integer
  | Text
  | Boolean
deriving DecidableEq, Repr

/-- storage/tuple_serde.rs: `StorageTupleValue`. -/
inductive StorageTupleValue where
  | integer (v : Int)
  | boolean (b : Bool)
  | string (s : RustString)
deriving DecidableEq, Repr

/-- storage/tuple.rs: `TupleRecord(pub Vec<u8>)`. -/
abbrev TupleRecord := List Nat

/-- storage/storage_manager.rs: `Attributes(Vec<(AttributeName, AttributeType)>)`. -/
abbrev Attributes := List (AttributeName × AttributeType)

/-- Lookup in a `HashMap` that was built by inserting the list elements in
order: a later insertion of the same key overwrites an earlier one. -/
def hmGet {α β : Type} [DecidableEq α] : List (α × β) → α → Option β
  | [], _ => none
  | (a, b) :: t, k =>
    match hmGet t k with
    | some v => some v
    | none => if a = k then some b else none

/-! ## Tuple codec (storage/tuple_serde.rs) -/
/-- Big-endian bytes of a 32-bit unsigned value (byteorder `write_u32::<BigEndian>`). -/
def natToBytes32 (n : Nat) : List Nat :=
  [n / 16777216 % 256, n / 65536 % 256, n / 256 % 256, n % 256]

/-- Big-endian two-complement bytes of an `i32` (byteorder `write_i32::<BigEndian>`). -/
def intToBytes32 (v : Int) : List Nat :=
  natToBytes32 ((v % 4294967296).toNat)

/-- Byte encoding of one value, as written by `serialize_tuple`:
integer = 4 bytes big-endian; boolean = one byte `0x1`/`0x0`;
string = `value.len() as u32` big-endian then the raw bytes. -/
def serializeValue : StorageTupleValue → List Nat
  | .integer v => intToBytes32 v
  | .boolean b => [if b then 1 else 0]
  | .string s => natToBytes32 (s.length % 4294967296) ++ s

/-- tuple_serde.rs: `serialize_tuple` writes the values one after another. -/
def serialize_tuple (values : List StorageTupleValue) : TupleRecord :=
  (values.map serializeValue).flatten

/-- tuple_serde.rs: `TupleRecord::read_integer`. Reads 4 bytes as a big-endian
two-complement `i32`; fewer than 4 remaining bytes is a slice panic (`none`). -/
def readInteger : List Nat → Option (StorageTupleValue × List Nat)
  | b0 :: b1 :: b2 :: b3 :: rest =>
    let n := b0 * 16777216 + b1 * 65536 + b2 * 256 + b3
    some (.integer (if n < 2147483648 then (n : Int) else (n : Int) - 4294967296), rest)
  | _ => none

/-- tuple_serde.rs: `TupleRecord::read_boolean`. One byte; nonzero is true. -/
def readBoolean : List Nat → Option (StorageTupleValue × List Nat)
  | b :: rest => some (.boolean (b != 0), rest)
  | _ => none

/-- tuple_serde.rs: `TupleRecord::read_text`. Reads a 4-byte big-endian length
then exactly that many bytes; running past the end of the record is a slice
panic (`none`). UTF-8 re-validation is elided (strings are byte lists here). -/
def readText : List Nat → Option (StorageTupleValue × List Nat)
  | b0 :: b1 :: b2 :: b3 :: rest =>
    let size := b0 * 16777216 + b1 * 65536 + b2 * 256 + b3
    if size ≤ rest.length then some (.string (rest.take size), rest.drop size) else none
  | _ => none

/-- Dispatch on the attribute type, as the `match attr_type` in `to_values`. -/
def readAttrValue : AttributeType → List Nat → Option (StorageTupleValue × List Nat)
  | .Integer => readInteger
  | .Text => readText
  | .Boolean => readBoolean

/-- Field-by-field loop of `TupleRecord::to_values`, threading the unread
suffix of the record (the source tracks a byte index instead). -/
def toValuesGo : List Nat → Attributes →
    Option (List (AttributeName × StorageTupleValue) × List Nat)
  | bytes, [] => some ([], bytes)
  | bytes, (name, ty) :: attrs =>
    match readAttrValue ty bytes with
    | none => none
    | some (v, rest) =>
      match toValuesGo rest attrs with
      | none => none
      | some (vs, rest₂) => some ((name, v) :: vs, rest₂)

/-- tuple_serde.rs: `TupleRecord::to_values`. Decodes the record against the
schema; the final `assert_eq!(index, self.0.len())` (no unread bytes) and any
mid-record end of input are panics (`none`). -/
def to_values (record : TupleRecord) (schema : Attributes) :
    Option (List (AttributeName × StorageTupleValue)) :=
  match toValuesGo record schema with
  | some (vs, []) => some vs
  | _ => none

/-- One value conforms to an attribute type, with the numeric ranges the Rust
types carry: `i32` range for integers, `u8` bytes and a `u32`-sized length for
strings. -/
def valueMatches : AttributeType → StorageTupleValue → Bool
  | .Integer, .integer v => decide (-2147483648 ≤ v ∧ v < 2147483648)
  | .Boolean, .boolean _ => true
  | .Text, .string s => decide (s.length < 4294967296 ∧ ∀ b ∈ s, b < 256)
  | _, _ => false

/-- A value list conforms pointwise to a schema (same length, matching types). -/
def wellTyped : Attributes → List StorageTupleValue → Bool
  | [], [] => true
  | (_, ty) :: attrs, v :: vs => valueMatches ty v && wellTyped attrs vs
  | _, _ => false

/-! ## Table storage (storage/table_storage.rs, storage/tuple.rs) -/
/-- storage/tuple.rs: `TupleId { store_id, slot_index }`. `StoreId(u64)` and
`TupleIndex = u32` are modelled as `Nat` (the session never reaches either
bound and the code performs no wrapping arithmetic on them). -/
structure TupleId where
  store_id : Nat
  slot_index : Nat
deriving DecidableEq, Repr

/-- table_storage.rs: `Storage`. The `tuple_store: HashMap<TupleId, TupleRecord>`
is modelled by its association list in insertion sequence; this fixes the
CONTENT of the map, but the iteration order of a Rust `HashMap` is arbitrary,
so `Storage.scanCanYield` below exposes every permutation. -/
structure Storage where
  next_index : Nat
  store_id : Nat
  tuple_store : List (TupleId × TupleRecord)
deriving DecidableEq, Repr

/-- table_storage.rs: `Storage::new`. -/
def Storage.new (store_id : Nat) : Storage :=
  { next_index := 0, store_id := store_id, tuple_store := [] }

/-- table_storage.rs: `Storage::insert_tuple`. Keys are fresh (the slot index
increments per insert), so `HashMap::insert` is an addition, recorded here by
appending the entry. -/
def Storage.insert_tuple (s : Storage) (tuple : TupleRecord) : TupleId × Storage :=
  let id : TupleId := { store_id := s.store_id, slot_index := s.next_index }
  (id, { s with next_index := s.next_index + 1, tuple_store := s.tuple_store ++ [(id, tuple)] })

/-- table_storage.rs: `Storage::scan` iterates `self.tuple_store.iter()`, a
`HashMap` iterator. Rust guarantees only that every entry is visited once, in
an arbitrary (seed-dependent) order, so the possible scan outputs are exactly
the permutations of the stored entries. -/
def Storage.scanCanYield (s : Storage) (l : List (TupleId × TupleRecord)) : Prop :=
  l.Perm s.tuple_store

/-! ## Storage manager (storage/storage_manager.rs) -/
/-- storage/error.rs: `StorageError`. The `format!` message building is elided;
each variant carries the datum the message is built from. -/
inductive StorageError where
  | noSuchTuple (id : TupleId)
  | alreadyExists (resource : RustString)
  | tupleSerdeError (msg : RustString)
deriving DecidableEq, Repr

/-- storage_manager.rs: `Attributes::with_alias` rewrites every attribute name
`n` to `alias.n` (`format!("{}.{}", alias, n)`; 46 is the dot byte). -/
def withAlias (attrs : Attributes) (al : RustString) : Attributes :=
  attrs.map (fun p => (al ++ [46] ++ p.1, p.2))

/-- storage_manager.rs: `Attributes::get_attribute_type` (`iter().find`). -/
def get_attribute_type (attrs : Attributes) (name : AttributeName) : Option AttributeType :=
  (attrs.find? (fun p => p.1 == name)).map Prod.snd

/-- storage_manager.rs: `Attributes::as_lookup_table` collects the attribute
pairs into a `HashMap`; lookups in it follow `hmGet`. -/
def as_lookup_table (attrs : Attributes) (name : RustString) : Option AttributeType :=
  hmGet attrs name

/-- storage_manager.rs: `Schema { store_id, primary_key, attributes }`. -/
structure Schema where
  store_id : Nat
  primary_key : AttributeName
  attributes : Attributes
deriving DecidableEq, Repr

/-- storage_manager.rs: `Schema::with_alias` prefixes the primary key and
every attribute name with the alias. -/
def Schema.with_alias (s : Schema) (al : RustString) : Schema :=
  { store_id := s.store_id, primary_key := al ++ [46] ++ s.primary_key,
    attributes := withAlias s.attributes al }

/-- storage_manager.rs: `CreateTableRequest`. -/
structure CreateTableRequest where
  table_name : RustString
  primary_key : AttributeName
  schema_attributes : Attributes
deriving DecidableEq, Repr

/-- storage_manager.rs: `StorageManager`. Both `HashMap` fields are modelled
as association lists in insertion order (keys are unique: table names are
checked before insert, store ids are fresh). -/
structure StorageManager where
  next_store_id : Nat
  table_storage_directory : List (Nat × Storage)
  schemas : List (RustString × Schema)
deriving DecidableEq, Repr

/-- storage_manager.rs: `StorageManager::new`. -/
def StorageManager.new : StorageManager :=
  { next_store_id := 0, table_storage_directory := [], schemas := [] }

/-- storage_manager.rs: `StorageManager::create_table`. Returns the result
together with the storage manager state after the call. -/
def StorageManager.create_table (sm : StorageManager) (req : CreateTableRequest) :
    Except StorageError Unit × StorageManager :=
  match hmGet sm.schemas req.table_name with
  | some _ => (.error (.alreadyExists req.table_name), sm)
  | none =>
    let store_id := sm.next_store_id
    (.ok (),
      { next_store_id := store_id + 1,
        schemas := sm.schemas ++
          [(req.table_name,
            { store_id := store_id, primary_key := req.primary_key,
              attributes := req.schema_attributes })],
        table_storage_directory :=
          sm.table_storage_directory ++ [(store_id, Storage.new store_id)] })

/-- storage_manager.rs: `StorageManager::get_schema`. -/
def StorageManager.get_schema (sm : StorageManager) (table_name : RustString)
    (al : Option RustString) : Option Schema :=
  (hmGet sm.schemas table_name).map (fun schema =>
    match al with
    | some a => schema.with_alias a
    | none => schema)

/-! ## Expression AST (parser/ast.rs) -/
/-- parser/ast.rs: `BinaryOperation`. -/
inductive BinaryOperation where
  | Addition
  | Subtraction
  | Multiplication
  | Division
  | Equal
  | NotEqual
  | LessThan
  | GreaterThan
  | LessThanOrEqual
  | GreaterThanOrEqual
deriving DecidableEq, Repr

/-- parser/ast.rs: `LiteralExpr`. -/
inductive LiteralExpr where
  | Integer (v : Int)
  | Boolean (b : Bool)
  | String (s : RustString)
  | Identifier (id : RustString)
deriving DecidableEq, Repr

/-- parser/ast.rs: `Expr` (the boxed `BinaryExpr` struct is flattened into the
`Binary` constructor). -/
inductive Expr where
  | Binary (left : Expr) (op : BinaryOperation) (right : Expr)
  | Literal (l : LiteralExpr)
deriving DecidableEq, Repr

/-- parser/ast.rs: `WhereClause`. -/
inductive WhereClause where
  | None
  | Expr (e : Expr)
deriving DecidableEq, Repr

/-! ## Type checker (translate/type_check.rs) -/
/-- translate/error.rs: `TranslateError`. The `format!` message building is
elided; `InvalidArguments` carries the datum its message is built from (for
the "no such attribute" message, the attribute name), and `TypeError` drops
its message entirely. -/
inductive TranslateError where
  | DuplicateAttributeName (name : RustString)
  | PrimaryKeyRequired
  | MultiplePrimaryKeys (keys : List RustString)
  | NoSuchTable (name : RustString)
  | NoSuchAttribute (name : RustString)
  | InvalidArguments (detail : RustString)
  | TypeError
  | StorageErr (e : StorageError)
deriving DecidableEq, Repr

/-- Operand and operator checking of the `Expr::Binary` arm of
`type_check_expr` (split out of the recursion for cleaner equations). -/
def typeCheckBinary (lt rt : AttributeType) (op : BinaryOperation) :
    Except TranslateError AttributeType :=
  if lt ≠ rt then .error .TypeError
  else
    match lt with
    | .Text | .Boolean =>
      match op with
      | .Equal | .NotEqual => .ok .Boolean
      | _ => .error .TypeError
    | .Integer =>
      match op with
      | .Equal | .NotEqual | .LessThan | .LessThanOrEqual
      | .GreaterThan | .GreaterThanOrEqual => .ok .Boolean
      | .Addition | .Subtraction | .Multiplication | .Division => .ok .Integer

/-- type_check.rs: `type_check_expr`. The context is the association list an
`as_lookup_table` call produces, looked up with `hmGet`. The inner `eval` on
an unknown identifier yields `InvalidArguments` with a "no such attribute"
message. -/
def type_check_expr : Expr → List (RustString × AttributeType) →
    Except TranslateError AttributeType
  | .Binary l op r, ctx =>
    match type_check_expr l ctx with
    | .error err => .error err
    | .ok lt =>
      match type_check_expr r ctx with
      | .error err => .error err
      | .ok rt => typeCheckBinary lt rt op
  | .Literal (.Integer _), _ => .ok .Integer
  | .Literal (.Boolean _), _ => .ok .Boolean
  | .Literal (.String _), _ => .ok .Text
  | .Literal (.Identifier attr), ctx =>
    match hmGet ctx attr with
    | some t => .ok t
    | none => .error (.InvalidArguments attr)

/-- type_check.rs: `type_check_projection`. -/
def type_check_projection (attr_names : List RustString)
    (ctx : List (RustString × AttributeType)) : Except TranslateError Attributes :=
  match attr_names with
  | [] => .ok []
  | n :: rest =>
    match hmGet ctx n with
    | some ty =>
      match type_check_projection rest ctx with
      | .ok attrs => .ok ((n, ty) :: attrs)
      | .error e => .error e
    | none => .error (.NoSuchAttribute n)

/-- type_check.rs: `type_check_join_predicate` (a missing join condition is
the "no join condition provided" InvalidArguments error). -/
def type_check_join_predicate (predicate : WhereClause)
    (ctx : List (RustString × AttributeType)) : Except TranslateError Expr :=
  match predicate with
  | .None => .error (.InvalidArguments [])
  | .Expr e =>
    match type_check_expr e ctx with
    | .error err => .error err
    | .ok .Boolean => .ok e
    | .ok _ => .error .TypeError

/-! ## Expression parser (parser/expr_parser.rs, parser/lexer/token.rs) -/
/-- parser/lexer/token.rs: `Token`. -/
inductive Token where
  | Create
  | Table
  | Insert
  | Select
  | From
  | Where
  | KeywordInteger
  | KeywordVarchar
  | KeywordPrimaryKey
  | KeywordInto
  | KeywordValues
  | Identifier (id : RustString)
  | StringLiteral (s : RustString)
  | LeftParen
  | RightParen
  | Comma
  | Semicolon
  | Star
  | Plus
  | Minus
  | Slash
  | Equal
  | NotEqual
  | LessThan
  | GreaterThan
  | LessThanOrEqual
  | GreaterThanOrEqual
  | Integer (v : Int)
  | True
  | False
  | EOF
deriving DecidableEq, Repr

/-- parser/ast.rs: `impl From<Token> for BinaryOperation`. The source match
has arms for `Plus Minus Star Slash Equal LessThan GreaterThan
LessThanOrEqual GreaterThanOrEqual` only; every other token - including
`Token::NotEqual` - falls into the `unreachable!` panic, modelled as `none`. -/
def binaryOperationFromToken : Token → Option BinaryOperation
  | .Plus => some .Addition
  | .Minus => some .Subtraction
  | .Star => some .Multiplication
  | .Slash => some .Division
  | .Equal => some .Equal
  | .LessThan => some .LessThan
  | .GreaterThan => some .GreaterThan
  | .LessThanOrEqual => some .LessThanOrEqual
  | .GreaterThanOrEqual => some .GreaterThanOrEqual
  | _ => none

/-- Outcome of a parser call: a panic, a `ParseError` (its message elided), or
a parsed expression with the unconsumed tokens. -/
inductive ParseOut where
  | panicked
  | failed
  | parsed (e : Expr) (rest : List Token)
deriving DecidableEq, Repr

/-- Tokens the `l0_expr` while-loop consumes. -/
def isL0Token : Token → Bool
  | .Equal | .NotEqual => true
  | _ => false

/-- Tokens the `l1_expr` while-loop consumes. -/
def isL1Token : Token → Bool
  | .LessThan | .GreaterThan | .LessThanOrEqual | .GreaterThanOrEqual => true
  | _ => false

/-- Tokens the `l2_expr` while-loop consumes. -/
def isL2Token : Token → Bool
  | .Plus | .Minus => true
  | _ => false

/-- Tokens the `l3_expr` while-loop consumes. -/
def isL3Token : Token → Bool
  | .Star | .Slash => true
  | _ => false

mutual

/-- expr_parser.rs: `Parser::l0_expr` (fuel-indexed; the fuel strictly exceeds
any real recursion depth, and running out is reported as a panic). -/
def l0_expr : Nat → List Token → ParseOut
  | 0, _ => .panicked
  | fuel + 1, input =>
    match l1_expr fuel input with
    | .parsed curr rest => l0_loop fuel curr rest
    | r => r

/-- While-loop of `Parser::l0_expr`: as long as the peeked token is `==` or
`!=`, consume it, convert it with `BinaryOperation::from` (a panic for `!=`,
see `binaryOperationFromToken`), and parse the right operand. -/
def l0_loop : Nat → Expr → List Token → ParseOut
  | 0, _, _ => .panicked
  | fuel + 1, curr, input =>
    match input with
    | tok :: rest =>
      if isL0Token tok then
        match binaryOperationFromToken tok with
        | none => .panicked
        | some op =>
          match l1_expr fuel rest with
          | .parsed right rest₂ => l0_loop fuel (.Binary curr op right) rest₂
          | r => r
      else .parsed curr input
    | [] => .parsed curr []

/-- expr_parser.rs: `Parser::l1_expr`. -/
def l1_expr : Nat → List Token → ParseOut
  | 0, _ => .panicked
  | fuel + 1, input =>
    match l2_expr fuel input with
    | .parsed curr rest => l1_loop fuel curr rest
    | r => r

/-- While-loop of `Parser::l1_expr` over the comparison tokens. -/
def l1_loop : Nat → Expr → List Token → ParseOut
  | 0, _, _ => .panicked
  | fuel + 1, curr, input =>
    match input with
    | tok :: rest =>
      if isL1Token tok then
        match binaryOperationFromToken tok with
        | none => .panicked
        | some op =>
          match l2_expr fuel rest with
          | .parsed right rest₂ => l1_loop fuel (.Binary curr op right) rest₂
          | r => r
      else .parsed curr input
    | [] => .parsed curr []

/-- expr_parser.rs: `Parser::l2_expr`. -/
def l2_expr : Nat → List Token → ParseOut
  | 0, _ => .panicked
  | fuel + 1, input =>
    match l3_expr fuel input with
    | .parsed curr rest => l2_loop fuel curr rest
    | r => r

/-- While-loop of `Parser::l2_expr` over `+` and `-`. -/
def l2_loop : Nat → Expr → List Token → ParseOut
  | 0, _, _ => .panicked
  | fuel + 1, curr, input =>
    match input with
    | tok :: rest =>
      if isL2Token tok then
        match binaryOperationFromToken tok with
        | none => .panicked
        | some op =>
          match l3_expr fuel rest with
          | .parsed right rest₂ => l2_loop fuel (.Binary curr op right) rest₂
          | r => r
      else .parsed curr input
    | [] => .parsed curr []

/-- expr_parser.rs: `Parser::l3_expr`. -/
def l3_expr : Nat → List Token → ParseOut
  | 0, _ => .panicked
  | fuel + 1, input =>
    match l4_expr fuel input with
    | .parsed curr rest => l3_loop fuel curr rest
    | r => r

/-- While-loop of `Parser::l3_expr` over `*` and `/`. -/
def l3_loop : Nat → Expr → List Token → ParseOut
  | 0, _, _ => .panicked
  | fuel + 1, curr, input =>
    match input with
    | tok :: rest =>
      if isL3Token tok then
        match binaryOperationFromToken tok with
        | none => .panicked
        | some op =>
          match l4_expr fuel rest with
          | .parsed right rest₂ => l3_loop fuel (.Binary curr op right) rest₂
          | r => r
      else .parsed curr input
    | [] => .parsed curr []

/-- expr_parser.rs: `Parser::l4_expr`, the atom rule. The source arm for an
identifier token builds `LiteralExpr::String(id)` - a string literal, not an
identifier expression. In the parenthesized arm the `match_token` result for
the closing parenthesis is discarded after `input.next()` consumes a token. -/
def l4_expr : Nat → List Token → ParseOut
  | 0, _ => .panicked
  | fuel + 1, input =>
    match input with
    | .Identifier id :: rest => .parsed (.Literal (.String id)) rest
    | .Integer num :: rest => .parsed (.Literal (.Integer num)) rest
    | .True :: rest => .parsed (.Literal (.Boolean true)) rest
    | .False :: rest => .parsed (.Literal (.Boolean false)) rest
    | .LeftParen :: rest =>
      match l0_expr fuel rest with
      | .parsed e rest₂ => .parsed e (rest₂.drop 1)
      | r => r
    | _ :: _ => .failed
    | [] => .failed

end

/-! ## Predicate evaluation (execution/expr_evaluation.rs; filter.rs holds a
textually identical local copy differing only in the key type of the map) -/
/-- Value context of a row: name-to-value pairs collected into a `HashMap`. -/
abbrev ValueCtx := List (RustString × StorageTupleValue)

/-- Binary arm of `evaluate_expr`: combine two evaluated literals. Every
`unreachable!` arm is `none`. Integer division mirrors the two Rust division
panics (zero divisor and `i32::MIN / -1`); overflow of the other operators
depends on the build profile and is not modelled (no claim depends on it). -/
def evalBinaryLit (left : LiteralExpr) (op : BinaryOperation) (right : LiteralExpr) :
    Option LiteralExpr :=
  match left with
  | .Boolean l =>
    match right with
    | .Boolean r =>
      match op with
      | .Equal => some (.Boolean (l == r))
      | .NotEqual => some (.Boolean (l != r))
      | .LessThan => some (.Boolean (!l && r))
      | .LessThanOrEqual => some (.Boolean (!l || r))
      | .GreaterThan => some (.Boolean (l && !r))
      | .GreaterThanOrEqual => some (.Boolean (l || !r))
      | _ => none
    | _ => none
  | .Integer l =>
    match right with
    | .Integer r =>
      match op with
      | .Addition => some (.Integer (l + r))
      | .Subtraction => some (.Integer (l - r))
      | .Multiplication => some (.Integer (l * r))
      | .Division =>
        if r = 0 ∨ (l = -2147483648 ∧ r = -1) then none else some (.Integer (Int.tdiv l r))
      | .Equal => some (.Boolean (l == r))
      | .NotEqual => some (.Boolean (l != r))
      | .LessThan => some (.Boolean (decide (l < r)))
      | .LessThanOrEqual => some (.Boolean (decide (l ≤ r)))
      | .GreaterThan => some (.Boolean (decide (l > r)))
      | .GreaterThanOrEqual => some (.Boolean (decide (l ≥ r)))
    | _ => none
  | .String l =>
    match right with
    | .String r =>
      match op with
      | .Equal => some (.Boolean (l == r))
      | .NotEqual => some (.Boolean (l != r))
      | _ => none
    | _ => none
  | .Identifier _ => none

/-- expr_evaluation.rs: inner `evaluate_expr`. An identifier is looked up in
the row context; a missing key is the `expect` panic (`none`). -/
def evaluateExprWithCtx : Expr → ValueCtx → Option LiteralExpr
  | .Binary l op r, ctx =>
    match evaluateExprWithCtx l ctx with
    | none => none
    | some left =>
      match evaluateExprWithCtx r ctx with
      | none => none
      | some right => evalBinaryLit left op right
  | .Literal (.Identifier id), ctx =>
    match hmGet ctx id with
    | some (.boolean v) => some (.Boolean v)
    | some (.integer v) => some (.Integer v)
    | some (.string v) => some (.String v)
    | none => none
  | .Literal lit, _ => some lit

/-- expr_evaluation.rs: `evaluate_predicate_with_ctx`. A non-Boolean result is
the final `unreachable!` panic. -/
def evaluate_predicate_with_ctx (predicate : Expr) (ctx : ValueCtx) : Option Bool :=
  match evaluateExprWithCtx predicate ctx with
  | some (.Boolean b) => some b
  | _ => none

/-! ## Filter operator (execution/filter.rs) -/
/-- Outcome of one `FilterOperation::next` call: a panic, the end of the
stream, or an item (row or error) together with the unconsumed child items. -/
inductive FilterStep where
  | panicked
  | ended
  | item (r : Except StorageError TupleRecord) (rest : List (Except StorageError TupleRecord))
deriving Repr

/-- filter.rs: `FilterOperation::next`. The child is a pull stream, modelled
by the list of items it will yield. Each child row is decoded with the
operator schema (`to_values`, a panic on failure) and the predicate is
evaluated on the decoded context; `true` forwards the row, `false` loops,
a child error is forwarded as is. -/
def filterNext (predicate : Expr) (schema : Attributes) :
    List (Except StorageError TupleRecord) → FilterStep
  | [] => .ended
  | .error e :: rest => .item (.error e) rest
  | .ok record :: rest =>
    match to_values record schema with
    | none => .panicked
    | some pairs =>
      match evaluate_predicate_with_ctx predicate pairs with
      | none => .panicked
      | some true => .item (.ok record) rest
      | some false => filterNext predicate schema rest

/-! ## Statement AST (parser/ast.rs as consumed by translate/mod.rs) -/
/-- parser/ast.rs: the column type keywords (`AttributeType` on the parser
side, renamed here to avoid clashing with the storage-side enum). -/
inductive AstAttributeType where
  | Integer
  | Text
deriving DecidableEq, Repr

/-- parser/ast.rs: `AttributeDefinition`. -/
structure AttributeDefinition where
  name : RustString
  attribute_type : AstAttributeType
  is_primary_key : Bool
deriving DecidableEq, Repr

/-- parser/ast.rs: `CreateTableStmt`. -/
structure CreateTableStmt where
  table_name : RustString
  attribute_definitions : List AttributeDefinition
deriving DecidableEq, Repr

/-- parser/ast.rs: `AttributeValue` (an insert value). -/
inductive AttributeValue where
  | String (s : RustString)
  | Expr (e : Expr)
deriving DecidableEq, Repr

/-- parser/ast.rs: `InsertStmt`. -/
structure InsertStmt where
  table_name : RustString
  attribute_names : List RustString
  attribute_values : List AttributeValue
deriving DecidableEq, Repr

/-- parser/ast.rs: `SelectProperties`. -/
inductive SelectProperties where
  | Star
  | Identifiers (names : List RustString)
deriving DecidableEq, Repr

/-- parser/ast.rs: `JoinType`. -/
inductive JoinType where
  | InnerJoin
deriving DecidableEq, Repr

mutual

/-- parser/ast.rs: `SelectStmt` (single select or join). -/
inductive SelectStmt where
  | Select (s : SingleSelectStmt)
  | Join (j : JoinStmt)

/-- parser/ast.rs: `SingleSelectStmt { properties, from_clause, where_clause, alias }`. -/
inductive SingleSelectStmt where
  | mk (properties : SelectProperties) (from_clause : FromClause)
      (where_clause : WhereClause) (al : Option RustString)

/-- parser/ast.rs: `FromClause` (a table name or a parenthesized sub-select). -/
inductive FromClause where
  | Select (s : SelectStmt)
  | Table (name : RustString)

/-- parser/ast.rs: `JoinStmt`. -/
inductive JoinStmt where
  | mk (join_type : JoinType) (properties : SelectProperties)
      (left : SingleSelectStmt) (right : SingleSelectStmt) (predicate : WhereClause)

end

/-- parser/ast.rs: `Stmt`. -/
inductive Stmt where
  | CreateTable (s : CreateTableStmt)
  | Insert (s : InsertStmt)
  | Select (s : SelectStmt)

/-! ## Plans (planner/plan) -/
/-- planner/plan/create_plan.rs: `CreateTablePlan`. -/
structure CreateTablePlan where
  table_name : RustString
  primary_key : AttributeName
  schema_attributes : Attributes
deriving DecidableEq, Repr

/-- planner/plan/insert_plan.rs: `InsertTuplePlan`. -/
structure InsertTuplePlan where
  table_name : RustString
  tuple : TupleRecord
deriving DecidableEq, Repr

mutual

/-- planner/plan/query_plan.rs: `QueryPlan { result_schema, plan }`. The
`QueryResultSchema` wrapper around `Attributes` is flattened. -/
inductive QueryPlan where
  | mk (result_schema : Attributes) (plan : QueryPlanNode)

/-- planner/plan/query_plan.rs: `QueryPlanNode` with its `ScanNode`,
`FilterNode`, `ProjectNode` and `JoinNode` payloads inlined. -/
inductive QueryPlanNode where
  | Scan (schema : Attributes) (table_name : RustString)
  | Filter (predicate : Expr) (schema : Attributes) (child : QueryPlan)
  | Project (schema : Attributes) (record_schema : Attributes)
      (attributes : List RustString) (child : QueryPlan)
  | Join (join_type : JoinType) (predicate : Expr) (schema : Attributes)
      (left : QueryPlan) (right : QueryPlan)

end

/-- Result schema accessor of a query plan. -/
def QueryPlan.result_schema : QueryPlan → Attributes
  | .mk rs _ => rs

/-- Plan node accessor of a query plan. -/
def QueryPlan.planNode : QueryPlan → QueryPlanNode
  | .mk _ p => p

/-- planner/plan/mod.rs: `Plan`. -/
inductive Plan where
  | CreateTable (p : CreateTablePlan)
  | InsertTuple (p : InsertTuplePlan)
  | Query (q : QueryPlan)

/-- query_plan.rs: `QueryResultSchema::aliased` (alias present: rewrite every
attribute name; absent: unchanged). -/
def aliasedAttrs (attrs : Attributes) (al : Option RustString) : Attributes :=
  match al with
  | some a => withAlias attrs a
  | none => attrs

/-! ## Translator (translate/mod.rs) -/
/-- Outcome of a translator call: a panic, a `TranslateError`, or a value. -/
inductive TRes (α : Type) where
  | panicked
  | errored (e : TranslateError)
  | ok (a : α)

instance : Monad TRes where
  pure := .ok
  bind r f :=
    match r with
    | .panicked => .panicked
    | .errored e => .errored e
    | .ok a => f a

/-- Lift a `Result` into the panic-aware outcome (the `?` operator). -/
def liftE {α : Type} : Except TranslateError α → TRes α
  | .ok a => .ok a
  | .error e => .errored e

/-- translate/mod.rs: `Translator::get_table_schema`. -/
def get_table_schema (sm : StorageManager) (table_name : RustString)
    (al : Option RustString) : TRes Schema :=
  match sm.get_schema table_name al with
  | some schema => .ok schema
  | none => .errored (.NoSuchTable table_name)

/-- translate/mod.rs: `Translator::translate_attribute_type`. -/
def translate_attribute_type : AstAttributeType → AttributeType
  | .Integer => .Integer
  | .Text => .Text

/-- translate/mod.rs: inner `resolve_literal_expr` of `resolve_attribute_value`. -/
def resolveLiteralExpr : LiteralExpr → TRes StorageTupleValue
  | .String s => .ok (.string s)
  | .Boolean b => .ok (.boolean b)
  | .Integer i => .ok (.integer i)
  | .Identifier s => .errored (.InvalidArguments s)

/-- translate/mod.rs: inner `resolve_expr`/`resolve_binary_expr` of
`resolve_attribute_value`: constant folding of an insert value expression.
Integer division mirrors the Rust division panics; overflow of the other
operators depends on the build profile and is not modelled. -/
def resolveExpr : Expr → TRes StorageTupleValue
  | .Literal lit => resolveLiteralExpr lit
  | .Binary l op r => do
    let left ← resolveExpr l
    let right ← resolveExpr r
    match left with
    | .string _ => .errored (.InvalidArguments [])
    | .integer lv =>
      match right with
      | .integer rv =>
        match op with
        | .Addition => .ok (.integer (lv + rv))
        | .Subtraction => .ok (.integer (lv - rv))
        | .Multiplication => .ok (.integer (lv * rv))
        | .Division =>
          if rv = 0 ∨ (lv = -2147483648 ∧ rv = -1) then .panicked
          else .ok (.integer (Int.tdiv lv rv))
        | .Equal => .ok (.boolean (lv == rv))
        | .NotEqual => .ok (.boolean (lv != rv))
        | .LessThan => .ok (.boolean (decide (lv < rv)))
        | .LessThanOrEqual => .ok (.boolean (decide (lv ≤ rv)))
        | .GreaterThan => .ok (.boolean (decide (lv > rv)))
        | .GreaterThanOrEqual => .ok (.boolean (decide (lv ≥ rv)))
      | _ => .errored (.InvalidArguments [])
    | .boolean lv =>
      match right with
      | .boolean rv =>
        match op with
        | .Equal => .ok (.boolean (lv == rv))
        | .NotEqual => .ok (.boolean (lv != rv))
        | _ => .errored (.InvalidArguments [])
      | _ => .errored (.InvalidArguments [])

/-- translate/mod.rs: `Translator::resolve_attribute_value`. -/
def resolve_attribute_value : AttributeValue → TRes StorageTupleValue
  | .String s => .ok (.string s)
  | .Expr e => resolveExpr e

/-- Resolution loop over the insert values (`for attr in attribute_values`). -/
def resolveAllValues : List AttributeValue → TRes (List StorageTupleValue)
  | [] => .ok []
  | v :: rest => do
    let r ← resolve_attribute_value v
    let rs ← resolveAllValues rest
    pure (r :: rs)

/-- translate/mod.rs: inner `resolved_value_to_type` of `translate_insert`;
the Boolean arm is `unimplemented!` (`none` = panic). -/
def resolved_value_to_type : StorageTupleValue → Option AttributeType
  | .integer _ => some .Integer
  | .string _ => some .Text
  | .boolean _ => none

/-- Name/type checking loop of `translate_insert` over the zipped
`(name, value)` pairs: the name must exist in the target schema and the
resolved type must equal the column type. -/
def checkInsertPairs (schema : Attributes) :
    List (RustString × StorageTupleValue) → TRes Unit
  | [] => .ok ()
  | (name, v) :: rest =>
    match get_attribute_type schema name with
    | some expected =>
      match resolved_value_to_type v with
      | none => .panicked
      | some got =>
        if expected ≠ got then .errored (.InvalidArguments name)
        else checkInsertPairs schema rest
    | none => .errored (.InvalidArguments name)

/-- translate/mod.rs: `Translator::translate_insert`. Checks the table
exists, `|names| = |values|` and non-emptiness, folds each value to a
constant, checks each named column exists with the right type - note there is
no check that the names cover the schema or are distinct - and emits the
serialized tuple. -/
def translate_insert (sm : StorageManager) (stmt : InsertStmt) : TRes Plan := do
  let schema ← get_table_schema sm stmt.table_name none
  if stmt.attribute_names.length ≠ stmt.attribute_values.length then
    TRes.errored (.InvalidArguments [])
  else if stmt.attribute_values.isEmpty then
    TRes.errored (.InvalidArguments [])
  else do
    let resolved ← resolveAllValues stmt.attribute_values
    let _ ← checkInsertPairs schema.attributes (stmt.attribute_names.zip resolved)
    pure (Plan.InsertTuple
      { table_name := stmt.table_name, tuple := serialize_tuple resolved })

/-- HashSet-based duplicate scan of `translate_create_table`: the first name
equal to an earlier one. -/
def firstDuplicate : List RustString → List RustString → Option RustString
  | [], _ => none
  | n :: rest, seen => if n ∈ seen then some n else firstDuplicate rest (n :: seen)

/-- translate/mod.rs: `Translator::translate_create_table`. -/
def translate_create_table (sm : StorageManager) (stmt : CreateTableStmt) :
    TRes Plan :=
  match sm.get_schema stmt.table_name none with
  | some _ => .errored (.StorageErr (.alreadyExists stmt.table_name))
  | none =>
    let primary_keys := stmt.attribute_definitions.filter (·.is_primary_key)
    match primary_keys with
    | [] => .errored .PrimaryKeyRequired
    | [pk] =>
      match firstDuplicate (stmt.attribute_definitions.map (·.name)) [] with
      | some dup => .errored (.DuplicateAttributeName dup)
      | none =>
        .ok (Plan.CreateTable
          { table_name := stmt.table_name, primary_key := pk.name,
            schema_attributes := stmt.attribute_definitions.map
              (fun d => (d.name, translate_attribute_type d.attribute_type)) })
    | _ => .errored (.MultiplePrimaryKeys (primary_keys.map (·.name)))

/-- translate/mod.rs: `Translator::translate_projection`. The projection is
type-checked against the aliased result schema of the child, but the node
keeps the unaliased child schema as its record schema. -/
def translate_projection (child_plan : QueryPlan) (projected_attr_names : List RustString)
    (al : Option RustString) : TRes QueryPlan := do
  let aliased_result_schema := aliasedAttrs child_plan.result_schema al
  let proj ← liftE (type_check_projection projected_attr_names aliased_result_schema)
  pure (QueryPlan.mk proj
    (.Project proj child_plan.result_schema projected_attr_names child_plan))

mutual

/-- translate/mod.rs: `Translator::translate_select` (fuel-indexed for the
sub-select recursion; the fuel strictly exceeds any real nesting depth and
running out is reported as a panic). -/
def translate_select : Nat → StorageManager → SelectStmt → TRes Plan
  | 0, _, _ => .panicked
  | fuel + 1, sm, .Select s => do
    let q ← translate_single_select fuel sm s
    pure (Plan.Query q)
  | fuel + 1, sm, .Join j => translate_join fuel sm j

/-- translate/mod.rs: `Translator::translate_single_select`. The WHERE
predicate is type-checked against the ALIASED result schema, but the emitted
`FilterNode` carries the UNALIASED child result schema; with Star properties
the final result schema is aliased on top of the unchanged plan node. -/
def translate_single_select : Nat → StorageManager → SingleSelectStmt → TRes QueryPlan
  | 0, _, _ => .panicked
  | fuel + 1, sm, .mk properties from_clause where_clause al => do
    let child_plan ←
      match from_clause with
      | .Table table_name => do
        let schema ← get_table_schema sm table_name none
        pure (QueryPlan.mk schema.attributes (.Scan schema.attributes table_name))
      | .Select nested => do
        let nested_table_plan ← translate_select fuel sm nested
        match nested_table_plan with
        | .Query q => pure q
        | _ => (TRes.panicked : TRes QueryPlan)
    let plan ←
      match where_clause with
      | .Expr predicate => do
        let aliased_result_schema := aliasedAttrs child_plan.result_schema al
        let _ ← liftE (type_check_expr predicate aliased_result_schema)
        pure (QueryPlan.mk child_plan.result_schema
          (.Filter predicate child_plan.result_schema child_plan))
      | .None => pure child_plan
    match properties with
    | .Identifiers attr_names => translate_projection plan attr_names al
    | .Star => pure (QueryPlan.mk (aliasedAttrs plan.result_schema al) plan.planNode)

/-- translate/mod.rs: `Translator::translate_join`: translate both sides,
reject a duplicated attribute name across the two result schemas, type-check
the ON predicate against the concatenated schema, and wrap in a projection
when the properties list identifiers. -/
def translate_join : Nat → StorageManager → JoinStmt → TRes Plan
  | 0, _, _ => .panicked
  | fuel + 1, sm, .mk join_type properties left right predicate => do
    let left_plan ← translate_single_select fuel sm left
    let right_plan ← translate_single_select fuel sm right
    let left_attributes := left_plan.result_schema
    let right_attributes := right_plan.result_schema
    match right_attributes.find? (fun p => (left_attributes.map Prod.fst).contains p.1) with
    | some dup => TRes.errored (.DuplicateAttributeName dup.1)
    | none => do
      let joined := left_attributes ++ right_attributes
      let predicate_expr ← liftE (type_check_join_predicate predicate joined)
      let join_plan := QueryPlan.mk joined
        (.Join join_type predicate_expr joined left_plan right_plan)
      match properties with
      | .Star => pure (Plan.Query join_plan)
      | .Identifiers attr_names => do
        let q ← translate_projection join_plan attr_names none
        pure (Plan.Query q)

end

/-- translate/mod.rs: `Translator::translate`. -/
def translate (fuel : Nat) (sm : StorageManager) : Stmt → TRes Plan
  | .CreateTable s => translate_create_table sm s
  | .Insert s => translate_insert sm s
  | .Select s => translate_select fuel sm s

/-! ## Inner join operator (execution/join.rs) -/
/-- join.rs: `TupleWithColumnLookup` - a buffered left row with its decoded
name-to-value map. -/
structure TupleWithColumnLookup where
  tuple : TupleRecord
  columns : ValueCtx
deriving DecidableEq, Repr

/-- join.rs: `InnerJoinOperation`. The two `SubQueryTuples` children are pull
streams, modelled by the lists of items they will yield (`leftRem`,
`rightRem`) together with their schemas. -/
structure InnerJoinOperation where
  predicate : Expr
  leftSchema : Attributes
  rightSchema : Attributes
  leftRem : List (Except StorageError TupleRecord)
  rightRem : List (Except StorageError TupleRecord)
  left_tuple_buffer : List TupleWithColumnLookup
  joined_tuples_buffer : List TupleRecord
  pre_fetched_left : Bool

/-- join.rs: `InnerJoinOperation::new`. -/
def innerJoinNew (pred : Expr) (lsch rsch : Attributes)
    (lstream rstream : List (Except StorageError TupleRecord)) : InnerJoinOperation :=
  { predicate := pred, leftSchema := lsch, rightSchema := rsch,
    leftRem := lstream, rightRem := rstream,
    left_tuple_buffer := [], joined_tuples_buffer := [], pre_fetched_left := false }

/-- join.rs: `InnerJoinOperation::pre_fetch_left`. Drains the left child into
the build buffer, decoding each row (a decode failure is a panic, `none`); a
left child error stops the drain and is returned alongside the rows buffered
so far (the `?` early return). -/
def preFetchLeft (schema : Attributes) :
    List (Except StorageError TupleRecord) →
      Option (List TupleWithColumnLookup × Option StorageError)
  | [] => some ([], none)
  | .error e :: _ => some ([], some e)
  | .ok t :: rest =>
    match to_values t schema with
    | none => none
    | some cols =>
      match preFetchLeft schema rest with
      | none => none
      | some (buf, err) => some ({ tuple := t, columns := cols } :: buf, err)

/-- Inner `for left in &self.left_tuple_buffer` loop of
`join_next_tuple_from_right`: evaluate the predicate on the merged map (left
map entries then right map entries) for each buffered left row in order, and
collect the concatenated record of each match. A predicate evaluation panic
is `none`. -/
def buildMatches (pred : Expr) (rcols : ValueCtx) (rt : TupleRecord) :
    List TupleWithColumnLookup → Option (List TupleRecord)
  | [] => some []
  | l :: rest =>
    match evaluate_predicate_with_ctx pred (l.columns ++ rcols) with
    | none => none
    | some b =>
      match buildMatches pred rcols rt rest with
      | none => none
      | some ms => some (if b then (l.tuple ++ rt) :: ms else ms)

/-- Outcome of `join_next_tuple_from_right`: a panic, a right-child error
(with the buffer and right stream at that point), or normal completion. -/
inductive JoinFetch where
  | panicked
  | errored (e : StorageError) (buffer : List TupleRecord)
      (rightRem : List (Except StorageError TupleRecord))
  | done (buffer : List TupleRecord)
      (rightRem : List (Except StorageError TupleRecord))

/-- join.rs: `InnerJoinOperation::join_next_tuple_from_right`. If the left
buffer is empty while joined tuples are pending, return at once; otherwise
consume right rows - appending the matches of each to the joined buffer - and
stop as soon as the joined buffer is non-empty after a row, the right child
errors, or the right child ends. The source evaluates the early-return guard
once before its while loop; here the guard is distributed into the cases of
the first loop iteration (for an empty right stream both paths return
`done B []`), which is the same function. -/
def joinNextFromRight (pred : Expr) (rsch : Attributes)
    (leftBuf : List TupleWithColumnLookup) :
    List TupleRecord → List (Except StorageError TupleRecord) → JoinFetch
  | B, [] => .done B []
  | B, .error e :: R₂ =>
    if leftBuf.isEmpty && !B.isEmpty then .done B (.error e :: R₂)
    else .errored e B R₂
  | B, .ok rt :: R₂ =>
    if leftBuf.isEmpty && !B.isEmpty then .done B (.ok rt :: R₂)
    else
      match to_values rt rsch with
      | none => .panicked
      | some rcols =>
        match buildMatches pred rcols rt leftBuf with
        | none => .panicked
        | some ms =>
          if (B ++ ms).isEmpty then joinNextFromRight pred rsch leftBuf (B ++ ms) R₂
          else .done (B ++ ms) R₂

/-- Outcome of one `InnerJoinOperation::next` call, with the updated state. -/
inductive JoinStep where
  | panicked
  | errorOut (e : StorageError) (s : InnerJoinOperation)
  | rowOut (r : TupleRecord) (s : InnerJoinOperation)
  | ended (s : InnerJoinOperation)

/-- Body of `InnerJoinOperation::next` after the pre-fetch step: run
`join_next_tuple_from_right`, then pop the LAST element of the joined buffer
(`Vec::pop`). -/
def joinNextAfterFetch (s : InnerJoinOperation) : JoinStep :=
  match joinNextFromRight s.predicate s.rightSchema s.left_tuple_buffer
      s.joined_tuples_buffer s.rightRem with
  | .panicked => .panicked
  | .errored e B R => .errorOut e { s with joined_tuples_buffer := B, rightRem := R }
  | .done B R =>
    match B.getLast? with
    | none => .ended { s with joined_tuples_buffer := B, rightRem := R }
    | some r => .rowOut r { s with joined_tuples_buffer := B.dropLast, rightRem := R }

/-- join.rs: `InnerJoinOperation::next`. On the first call the left side is
drained by `pre_fetch_left()` whose `Result` is DROPPED at the call site
(`_discardedErr` below never reaches the caller). -/
def joinNext (s : InnerJoinOperation) : JoinStep :=
  if s.pre_fetched_left then joinNextAfterFetch s
  else
    match preFetchLeft s.leftSchema s.leftRem with
    | none => .panicked
    | some (buf, _discardedErr) =>
      joinNextAfterFetch { s with pre_fetched_left := true, left_tuple_buffer := buf }

/-- Events observed by the caller driving an iterator to completion: emitted
rows, then possibly one error (the caller aborts at the first `Error`), or a
panic. -/
inductive RunEvent where
  | row (r : TupleRecord)
  | err (e : StorageError)
  | panicMark
deriving DecidableEq, Repr

/-- The db.rs driver loop on the join operator: call `next` until `End`
(collecting rows), abort at the first error, stop at a panic. The fuel
strictly exceeds the number of calls any run needs; running out yields the
panic marker. -/
def joinRun : Nat → InnerJoinOperation → List RunEvent
  | 0, _ => [.panicMark]
  | fuel + 1, s =>
    match joinNext s with
    | .panicked => [.panicMark]
    | .errorOut e _ => [.err e]
    | .ended _ => []
    | .rowOut r s₂ => .row r :: joinRun fuel s₂

/-- Specification vocabulary for the amended claim C5: right row `rt` decodes
and produces exactly the match list `ms` against the buffered left side. -/
def rowMatchSpec (pred : Expr) (rsch : Attributes)
    (leftBuf : List TupleWithColumnLookup) (rt : TupleRecord)
    (ms : List TupleRecord) : Prop :=
  ∃ rcols, to_values rt rsch = some rcols ∧ buildMatches pred rcols rt leftBuf = some ms

/-! ## Theorems and supporting lemmas -/

/-! ## Round-trip of the tuple codec -/
lemma readInteger_serialize (v : Int) (h1 : -2147483648 ≤ v) (h2 : v < 2147483648)
    (rest : List Nat) :
    readInteger (intToBytes32 v ++ rest) = some (.integer v, rest) := by
  unfold intToBytes32 natToBytes32 readInteger
  simp only [List.cons_append, List.nil_append]
  have hval : (((v % 4294967296).toNat / 16777216 % 256 * 16777216 +
      (v % 4294967296).toNat / 65536 % 256 * 65536 +
      (v % 4294967296).toNat / 256 % 256 * 256 + (v % 4294967296).toNat % 256 : Nat)) =
      (v % 4294967296).toNat := by omega
  simp only [hval]
  have : (if (v % 4294967296).toNat < 2147483648 then ((v % 4294967296).toNat : Int)
      else ((v % 4294967296).toNat : Int) - 4294967296) = v := by
    split <;> omega
  rw [this]

lemma readBoolean_serialize (b : Bool) (rest : List Nat) :
    readBoolean (serializeValue (.boolean b) ++ rest) = some (.boolean b, rest) := by
  cases b <;> simp [serializeValue, readBoolean]

lemma readText_serialize (s : RustString) (h : s.length < 4294967296) (rest : List Nat) :
    readText (serializeValue (.string s) ++ rest) = some (.string s, rest) := by
  unfold serializeValue natToBytes32 readText
  simp only [List.append_assoc, List.cons_append, List.nil_append]
  have hlen : s.length % 4294967296 = s.length := Nat.mod_eq_of_lt h
  have hval : s.length % 4294967296 / 16777216 % 256 * 16777216 +
      s.length % 4294967296 / 65536 % 256 * 65536 +
      s.length % 4294967296 / 256 % 256 * 256 + s.length % 4294967296 % 256 = s.length := by
    omega
  simp only [hval]
  have hle : s.length ≤ (s ++ rest).length := by simp
  rw [if_pos hle, List.take_left, List.drop_left]

lemma readAttrValue_serialize (ty : AttributeType) (v : StorageTupleValue)
    (h : valueMatches ty v = true) (rest : List Nat) :
    readAttrValue ty (serializeValue v ++ rest) = some (v, rest) := by
  cases ty <;> cases v <;>
    simp only [valueMatches, decide_eq_true_eq, Bool.false_eq_true] at h
  case Integer.integer =>
    exact readInteger_serialize _ h.1 h.2 rest
  case Text.string =>
    exact readText_serialize _ h.1 rest
  case Boolean.boolean =>
    exact readBoolean_serialize _ rest

lemma wellTyped_length (attrs : Attributes) (vs : List StorageTupleValue)
    (h : wellTyped attrs vs = true) : attrs.length = vs.length := by
  induction attrs generalizing vs with
  | nil => cases vs with
    | nil => rfl
    | cons v vs => simp [wellTyped] at h
  | cons a attrs ih =>
    cases vs with
    | nil => cases a; simp [wellTyped] at h
    | cons v vs =>
      cases a
      simp only [wellTyped, Bool.and_eq_true] at h
      simpa using ih vs h.2

lemma toValuesGo_serialize (attrs : Attributes) (vs : List StorageTupleValue)
    (h : wellTyped attrs vs = true) (rest : List Nat) :
    toValuesGo (serialize_tuple vs ++ rest) attrs =
      some ((attrs.map Prod.fst).zip vs, rest) := by
  induction attrs generalizing vs rest with
  | nil =>
    cases vs with
    | nil => simp [serialize_tuple, toValuesGo]
    | cons v vs => simp [wellTyped] at h
  | cons a attrs ih =>
    obtain ⟨name, ty⟩ := a
    cases vs with
    | nil => simp [wellTyped] at h
    | cons v vs =>
      simp only [wellTyped, Bool.and_eq_true] at h
      have hser : serialize_tuple (v :: vs) = serializeValue v ++ serialize_tuple vs := by
        simp [serialize_tuple]
      rw [hser, List.append_assoc]
      simp only [toValuesGo, readAttrValue_serialize ty v h.1, ih vs h.2 rest]
      simp

/-- Claim C8: the tuple codec round-trips. For a value list conforming to a
schema (the records the codec produces from that schema), decoding the
serialized record with the same schema returns exactly the values, paired in
order with the schema attribute names, and re-encoding the decoded values
yields the identical byte sequence. -/
theorem tuple_codec_roundtrip (attrs : Attributes) (vs : List StorageTupleValue)
    (h : wellTyped attrs vs = true) :
    to_values (serialize_tuple vs) attrs = some ((attrs.map Prod.fst).zip vs) ∧
    serialize_tuple (((attrs.map Prod.fst).zip vs).map Prod.snd) = serialize_tuple vs := by
  constructor
  · have hgo := toValuesGo_serialize attrs vs h []
    rw [List.append_nil] at hgo
    unfold to_values
    rw [hgo]
  · have hlen : (attrs.map Prod.fst).length = vs.length := by
      simpa using wellTyped_length attrs vs h
    rw [List.map_snd_zip _ _ (le_of_eq hlen.symm)]

/-- Witness for claim C8 at a concrete schema and value list. -/
theorem tuple_codec_roundtrip_witness :
    wellTyped [([97], .Integer), ([98], .Text), ([99], .Boolean)]
      [.integer (-5), .string [104, 105], .boolean true] = true ∧
    (to_values (serialize_tuple [.integer (-5), .string [104, 105], .boolean true])
        [([97], .Integer), ([98], .Text), ([99], .Boolean)] =
      some ((([([97], AttributeType.Integer), ([98], .Text), ([99], .Boolean)]).map
          Prod.fst).zip [.integer (-5), .string [104, 105], .boolean true]) ∧
      serialize_tuple (((([([97], AttributeType.Integer), ([98], .Text),
          ([99], .Boolean)]).map Prod.fst).zip
            [.integer (-5), .string [104, 105], .boolean true]).map Prod.snd) =
        serialize_tuple [.integer (-5), .string [104, 105], .boolean true]) :=
  ⟨by decide, tuple_codec_roundtrip _ _ (by decide)⟩

/-- Claim C9: a second CREATE TABLE with an existing name fails with an
already-exists error and leaves the whole storage manager state - the schema
catalog, every row store, and the next store id - unchanged. -/
theorem create_table_existing_fails_unchanged (sm : StorageManager)
    (req : CreateTableRequest) (defs : List AttributeDefinition)
    (h : (hmGet sm.schemas req.table_name).isSome = true) :
    (sm.create_table req).1 = .error (.alreadyExists req.table_name) ∧
    (sm.create_table req).2 = sm ∧
    translate_create_table sm (CreateTableStmt.mk req.table_name defs) =
      .errored (.StorageErr (.alreadyExists req.table_name)) := by
  unfold StorageManager.create_table translate_create_table
  cases heq : hmGet sm.schemas req.table_name with
  | none => rw [heq] at h; simp [Option.isSome] at h
  | some s =>
    refine ⟨rfl, rfl, ?_⟩
    simp [StorageManager.get_schema, heq]

/-- Witness for claim C9: a storage manager already holding table `t`. -/
theorem create_table_existing_fails_unchanged_witness :
    (hmGet (StorageManager.mk 1 [(0, Storage.new 0)]
        [([116], Schema.mk 0 [97] [([97], .Integer)])]).schemas [116]).isSome = true ∧
    ((StorageManager.mk 1 [(0, Storage.new 0)]
        [([116], Schema.mk 0 [97] [([97], .Integer)])]).create_table
          (CreateTableRequest.mk [116] [97] [([97], .Integer)])).1 =
      .error (.alreadyExists [116]) ∧
    ((StorageManager.mk 1 [(0, Storage.new 0)]
        [([116], Schema.mk 0 [97] [([97], .Integer)])]).create_table
          (CreateTableRequest.mk [116] [97] [([97], .Integer)])).2 =
      StorageManager.mk 1 [(0, Storage.new 0)]
        [([116], Schema.mk 0 [97] [([97], .Integer)])] ∧
    translate_create_table
        (StorageManager.mk 1 [(0, Storage.new 0)]
          [([116], Schema.mk 0 [97] [([97], .Integer)])])
        (CreateTableStmt.mk [116] []) =
      .errored (.StorageErr (.alreadyExists [116])) :=
  ⟨by decide, create_table_existing_fails_unchanged _ _ [] (by decide)⟩

/-- Claim C1 (refuting support): after inserting two rows, the `HashMap`
iteration contract - any permutation of the stored entries - admits a scan
output whose records are not in insertion order, so `Storage::scan` does not
guarantee insertion-order (nor run-to-run deterministic) emission. -/
theorem scan_order_not_forced_by_hashmap :
    ∃ l, Storage.scanCanYield
        (((Storage.new 0).insert_tuple [1]).2.insert_tuple [2]).2 l ∧
      l.map Prod.snd ≠ [[1], [2]] := by
  refine ⟨[(⟨0, 1⟩, [2]), (⟨0, 0⟩, [1])], ?_, by decide⟩
  unfold Storage.scanCanYield
  decide

/-- Claim C4 (refuting support): on the token sequence `1 != 2` the expression
parser reaches `BinaryOperation::from(Token::NotEqual)`, whose match has no
arm for `!=` and panics, instead of returning a not-equal AST node. -/
theorem notequal_token_parse_panics :
    binaryOperationFromToken .NotEqual = none ∧
    l0_expr 10 [.Integer 1, .NotEqual, .Integer 2] = .panicked :=
  ⟨rfl, rfl⟩

/-- Claim C2 (refuting support): the `l4_expr` atom rule turns an identifier
token into a string literal (`LiteralExpr::String`), which the type checker
types as Text with no environment lookup; a genuine identifier expression
would resolve through the environment or fail with a "no such attribute"
error, as the last two conjuncts show. -/
theorem identifier_atom_parsed_as_string_literal :
    l4_expr 10 [.Identifier [97, 103, 101]] =
      .parsed (.Literal (.String [97, 103, 101])) [] ∧
    type_check_expr (.Literal (.String [97, 103, 101])) [] = .ok .Text ∧
    type_check_expr (.Literal (.Identifier [97, 103, 101]))
      [([97, 103, 101], .Integer)] = .ok .Integer ∧
    type_check_expr (.Literal (.Identifier [97, 103, 101])) [] =
      .error (.InvalidArguments [97, 103, 101]) :=
  ⟨rfl, rfl, rfl, rfl⟩

/-! ## Alias strictness (claim C10) -/
lemma hmGet_none_of {α β : Type} [DecidableEq α] (l : List (α × β)) (k : α)
    (h : ∀ p ∈ l, p.1 ≠ k) : hmGet l k = none := by
  induction l with
  | nil => rfl
  | cons p t ih =>
    obtain ⟨a, b⟩ := p
    have ht : hmGet t k = none := ih (fun q hq => h q (List.mem_cons_of_mem _ hq))
    have ha : a ≠ k := h (a, b) (List.mem_cons_self _ _)
    simp [hmGet, ht, ha]

lemma hmGet_isSome_of_mem {α β : Type} [DecidableEq α] (l : List (α × β)) (k : α)
    (b : β) (h : (k, b) ∈ l) : (hmGet l k).isSome = true := by
  induction l with
  | nil => simp at h
  | cons p t ih =>
    obtain ⟨a, c⟩ := p
    rcases List.mem_cons.mp h with heq | hmem
    · obtain ⟨rfl, rfl⟩ := Prod.mk.injEq .. ▸ heq
      cases ht : hmGet t k <;> simp [hmGet, ht]
    · have hs := ih hmem
      cases ht : hmGet t k
      · rw [ht] at hs; simp at hs
      · simp [hmGet, ht]

/-- Claim C10: with an aliased source, an unqualified (dot-free) attribute
name of the table fails both projection type checking (NoSuchAttribute) and
predicate type checking (the "no such attribute" InvalidArguments error),
because identifiers are resolved only against the aliased schema, while the
`alias.name` form resolves successfully in both places. -/
theorem alias_resolution_strict (attrs : Attributes) (al n : RustString)
    (ty : AttributeType) (hmem : (n, ty) ∈ attrs) (hdot : 46 ∉ n) :
    type_check_projection [n] (withAlias attrs al) = .error (.NoSuchAttribute n) ∧
    type_check_expr (.Literal (.Identifier n)) (withAlias attrs al) =
      .error (.InvalidArguments n) ∧
    (∃ ty₂, type_check_projection [al ++ [46] ++ n] (withAlias attrs al) =
      .ok [(al ++ [46] ++ n, ty₂)]) ∧
    (∃ ty₃, type_check_expr (.Literal (.Identifier (al ++ [46] ++ n)))
      (withAlias attrs al) = .ok ty₃) := by
  have hnone : hmGet (withAlias attrs al) n = none := by
    apply hmGet_none_of
    intro p hp
    simp only [withAlias, List.mem_map] at hp
    obtain ⟨q, _, rfl⟩ := hp
    intro hcontra
    apply hdot
    rw [← hcontra]
    simp
  have hsome : (hmGet (withAlias attrs al) (al ++ [46] ++ n)).isSome = true := by
    apply hmGet_isSome_of_mem _ _ ty
    simp only [withAlias, List.mem_map]
    exact ⟨(n, ty), hmem, rfl⟩
  obtain ⟨ty₂, hty₂⟩ := Option.isSome_iff_exists.mp hsome
  have hty₂b : hmGet (withAlias attrs al) (al ++ 46 :: n) = some ty₂ := by
    simpa using hty₂
  refine ⟨?_, ?_, ⟨ty₂, ?_⟩, ⟨ty₂, ?_⟩⟩
  · simp [type_check_projection, hnone]
  · simp [type_check_expr, hnone]
  · simp [type_check_projection, hty₂b]
  · simp [type_check_expr, hty₂b]

/-- Witness for claim C10 at table attributes `[a : Integer]`, alias `x`,
attribute name `a`. -/
theorem alias_resolution_strict_witness :
    (([97], AttributeType.Integer) ∈ [([97], AttributeType.Integer)]) ∧
    (46 ∉ [97]) ∧
    (type_check_projection [[97]] (withAlias [([97], .Integer)] [120]) =
      .error (.NoSuchAttribute [97]) ∧
    type_check_expr (.Literal (.Identifier [97]))
      (withAlias [([97], .Integer)] [120]) = .error (.InvalidArguments [97]) ∧
    (∃ ty₂, type_check_projection [[120] ++ [46] ++ [97]]
      (withAlias [([97], .Integer)] [120]) = .ok [([120] ++ [46] ++ [97], ty₂)]) ∧
    (∃ ty₃, type_check_expr (.Literal (.Identifier ([120] ++ [46] ++ [97])))
      (withAlias [([97], .Integer)] [120]) = .ok ty₃)) :=
  ⟨by decide, by decide,
    alias_resolution_strict [([97], .Integer)] [120] [97] .Integer (by decide) (by decide)⟩

/-- Claim C3 (refuting support): for `SELECT * FROM t AS x WHERE x.a = 0`
over `t(a integer)`, the translator accepts the statement - the predicate
type-checks against the aliased schema `x.a` - but the emitted filter node
carries the unaliased schema `a`; at run time the filter decodes a row to the
name map with key `a` only, the predicate looks up `x.a`, and the evaluator
panics on the missing attribute. -/
theorem aliased_where_filter_panics :
    type_check_expr
      (.Binary (.Literal (.Identifier [120, 46, 97])) .Equal (.Literal (.Integer 0)))
      (withAlias [([97], .Integer)] [120]) = .ok .Boolean ∧
    translate_single_select 10
      (StorageManager.mk 1 [(0, Storage.new 0)]
        [([116], Schema.mk 0 [97] [([97], .Integer)])])
      (SingleSelectStmt.mk .Star (.Table [116])
        (.Expr (.Binary (.Literal (.Identifier [120, 46, 97])) .Equal
          (.Literal (.Integer 0))))
        (some [120])) =
      .ok (QueryPlan.mk [([120, 46, 97], .Integer)]
        (.Filter
          (.Binary (.Literal (.Identifier [120, 46, 97])) .Equal (.Literal (.Integer 0)))
          [([97], .Integer)]
          (QueryPlan.mk [([97], .Integer)] (.Scan [([97], .Integer)] [116])))) ∧
    filterNext
      (.Binary (.Literal (.Identifier [120, 46, 97])) .Equal (.Literal (.Integer 0)))
      [([97], .Integer)] [.ok (serialize_tuple [.integer 0])] = .panicked :=
  ⟨rfl, rfl, rfl⟩

/-- Claim C7 (refuting support): over `t(a integer, b integer)`, the insert
`INSERT INTO t (a) VALUES (1)` naming a proper subset of the columns is
accepted by the translator and stores a 4-byte record that does NOT decode
against the two-column schema (premature end of input); and the
duplicated-column insert `INSERT INTO t (a, a) VALUES (1, 2)` is also
accepted and stores a record. -/
theorem insert_subset_stored_undecodable :
    translate_insert
      (StorageManager.mk 1 [(0, Storage.new 0)]
        [([116], Schema.mk 0 [97] [([97], .Integer), ([98], .Integer)])])
      (InsertStmt.mk [116] [[97]] [.Expr (.Literal (.Integer 1))]) =
      .ok (Plan.InsertTuple
        { table_name := [116], tuple := serialize_tuple [.integer 1] }) ∧
    to_values (serialize_tuple [.integer 1]) [([97], .Integer), ([98], .Integer)] =
      none ∧
    translate_insert
      (StorageManager.mk 1 [(0, Storage.new 0)]
        [([116], Schema.mk 0 [97] [([97], .Integer), ([98], .Integer)])])
      (InsertStmt.mk [116] [[97], [97]]
        [.Expr (.Literal (.Integer 1)), .Expr (.Literal (.Integer 2))]) =
      .ok (Plan.InsertTuple
        { table_name := [116], tuple := serialize_tuple [.integer 1, .integer 2] }) :=
  ⟨rfl, rfl, rfl⟩

/-- Claim C6 (refuting support): a join whose left child yields an error has
that error returned by `pre_fetch_left` (second conjunct), but the full run
of the operator emits no error event at all - `next()` drops the
`pre_fetch_left` result and the join ends silently. -/
theorem join_left_error_swallowed :
    joinRun 5 (innerJoinNew (.Literal (.Boolean true)) [([97], .Integer)]
      [([98], .Integer)] [.error (.tupleSerdeError [])] []) = [] ∧
    preFetchLeft [([97], .Integer)] [.error (.tupleSerdeError [])] =
      some ([], some (.tupleSerdeError [])) :=
  ⟨rfl, rfl⟩

/-- Claim C5 (refuting support): with left rows `1, 2` and right rows
`10, 20` under an always-true predicate, the code emits
`[2⧺10, 2⧺20, 1⧺20, 1⧺10]` - the second emitted row already comes from the
second right row while the match `1⧺10` of the first right row is still
buffered, and matches of one right row come out in reverse buffer order -
whereas the claimed order (all matches of right row one first, in buffer
order) is `[1⧺10, 2⧺10, 1⧺20, 2⧺20]`. -/
theorem join_emission_order_counterexample :
    joinRun 10 (innerJoinNew (.Literal (.Boolean true)) [([97], .Integer)]
      [([98], .Integer)]
      [.ok (serialize_tuple [.integer 1]), .ok (serialize_tuple [.integer 2])]
      [.ok (serialize_tuple [.integer 10]), .ok (serialize_tuple [.integer 20])]) =
      [.row (serialize_tuple [.integer 2] ++ serialize_tuple [.integer 10]),
       .row (serialize_tuple [.integer 2] ++ serialize_tuple [.integer 20]),
       .row (serialize_tuple [.integer 1] ++ serialize_tuple [.integer 20]),
       .row (serialize_tuple [.integer 1] ++ serialize_tuple [.integer 10])] ∧
    joinRun 10 (innerJoinNew (.Literal (.Boolean true)) [([97], .Integer)]
      [([98], .Integer)]
      [.ok (serialize_tuple [.integer 1]), .ok (serialize_tuple [.integer 2])]
      [.ok (serialize_tuple [.integer 10]), .ok (serialize_tuple [.integer 20])]) ≠
      [.row (serialize_tuple [.integer 1] ++ serialize_tuple [.integer 10]),
       .row (serialize_tuple [.integer 2] ++ serialize_tuple [.integer 10]),
       .row (serialize_tuple [.integer 1] ++ serialize_tuple [.integer 20]),
       .row (serialize_tuple [.integer 2] ++ serialize_tuple [.integer 20])] :=
  ⟨rfl, by decide⟩

lemma joinNextFromRight_spec (pred : Expr) (rsch : Attributes)
    (leftBuf : List TupleWithColumnLookup) (Rrecs : List TupleRecord)
    (Ms : List (List TupleRecord))
    (h : List.Forall₂ (rowMatchSpec pred rsch leftBuf) Rrecs Ms) :
    ∀ B : List TupleRecord,
    ∃ B₂ R₂ Ms₂,
      joinNextFromRight pred rsch leftBuf B (Rrecs.map .ok) = .done B₂ (R₂.map .ok) ∧
      List.Forall₂ (rowMatchSpec pred rsch leftBuf) R₂ Ms₂ ∧
      B₂ ++ Ms₂.flatten = B ++ Ms.flatten ∧
      (B₂ = [] → B = [] ∧ Ms.flatten = [] ∧ R₂ = []) := by
  induction h with
  | nil =>
    intro B
    exact ⟨B, [], [], rfl, .nil, by simp, fun hB => ⟨hB, rfl, rfl⟩⟩
  | cons hhead htail ih =>
    rename_i rt ms R₃ Ms₃
    intro B
    obtain ⟨rcols, hdec, hbm⟩ := hhead
    by_cases hguard : (leftBuf.isEmpty && !B.isEmpty) = true
    · refine ⟨B, rt :: R₃, ms :: Ms₃, ?_, .cons ⟨rcols, hdec, hbm⟩ htail, rfl, ?_⟩
      · simp only [List.map_cons]
        rw [joinNextFromRight, if_pos hguard]
      · intro hB
        rw [hB] at hguard
        simp at hguard
    · by_cases hbe : (B ++ ms).isEmpty = true
      · obtain ⟨B₂, R₂, Ms₂, heq, hf, hflat, hlast⟩ := ih (B ++ ms)
        have hBnil : B = [] ∧ ms = [] := by
          rw [List.isEmpty_iff, List.append_eq_nil] at hbe
          exact hbe
        refine ⟨B₂, R₂, Ms₂, ?_, hf, ?_, ?_⟩
        · simp only [List.map_cons]
          rw [joinNextFromRight, if_neg hguard]
          simp only [hdec, hbm, hbe, if_true]
          exact heq
        · rw [hflat, hBnil.1, hBnil.2]
          simp
        · intro hB₂
          obtain ⟨hBms, hMs₂, hR₂⟩ := hlast hB₂
          refine ⟨hBnil.1, ?_, hR₂⟩
          simp [hBnil.2, hMs₂]
      · refine ⟨B ++ ms, R₃, Ms₃, ?_, htail, by simp, ?_⟩
        · simp only [List.map_cons]
          rw [joinNextFromRight, if_neg hguard]
          have hbe₂ : (B ++ ms).isEmpty = false := by
            cases h : (B ++ ms).isEmpty
            · rfl
            · exact absurd h hbe
          simp only [hdec, hbm, hbe₂, Bool.false_eq_true, if_false]
        · intro hB
          rw [hB] at hbe
          simp at hbe

lemma joinRun_from_prefetched (pred : Expr) (lsch rsch : Attributes)
    (lrem : List (Except StorageError TupleRecord))
    (leftBuf : List TupleWithColumnLookup) :
    ∀ (fuel : Nat) (Rrecs : List TupleRecord) (Ms : List (List TupleRecord))
      (B : List TupleRecord),
    List.Forall₂ (rowMatchSpec pred rsch leftBuf) Rrecs Ms →
    B.length + Ms.flatten.length + 1 ≤ fuel →
    ∃ rows : List TupleRecord, joinRun fuel
        ⟨pred, lsch, rsch, lrem, Rrecs.map .ok, leftBuf, B, true⟩ =
          rows.map .row ∧
      rows.Perm (B ++ Ms.flatten) := by
  intro fuel
  induction fuel with
  | zero => intro _ _ _ _ hfuel; omega
  | succ fuel ih =>
    intro Rrecs Ms B hms hfuel
    obtain ⟨B₂, R₂, Ms₂, heq, hf, hflat, hlast⟩ :=
      joinNextFromRight_spec pred rsch leftBuf Rrecs Ms hms B
    have hlen : B₂.length + Ms₂.flatten.length = B.length + Ms.flatten.length := by
      have := congrArg List.length hflat
      simpa using this
    rw [joinRun]
    simp only [joinNext, joinNextAfterFetch, if_true, heq]
    cases hB₂ : B₂.getLast? with
    | none =>
      have hB₂nil : B₂ = [] := List.getLast?_eq_none_iff.mp hB₂
      obtain ⟨hBnil, hMsnil, _⟩ := hlast hB₂nil
      exact ⟨[], by simp, by simp [hBnil, hMsnil]⟩
    | some r =>
      have hsplit : B₂.dropLast ++ [r] = B₂ :=
        List.dropLast_append_getLast? r hB₂
      have hB₂ne : B₂ ≠ [] := by
        intro hc
        rw [hc] at hB₂
        simp at hB₂
      have hfuel₂ : B₂.dropLast.length + Ms₂.flatten.length + 1 ≤ fuel := by
        have h1 : B₂.dropLast.length = B₂.length - 1 := by simp [List.length_dropLast]
        have h2 : 1 ≤ B₂.length := by
          cases B₂ with
          | nil => exact absurd rfl hB₂ne
          | cons a t => simp
        omega
      obtain ⟨rows₂, hrun₂, hperm₂⟩ := ih R₂ Ms₂ B₂.dropLast hf hfuel₂
      refine ⟨r :: rows₂, ?_, ?_⟩
      · simp only [List.map_cons, hrun₂]
      · have p1 : List.Perm (r :: rows₂) (r :: (B₂.dropLast ++ Ms₂.flatten)) :=
          hperm₂.cons r
        have p2 : List.Perm (r :: (B₂.dropLast ++ Ms₂.flatten))
            (B₂.dropLast ++ r :: Ms₂.flatten) := List.perm_middle.symm
        have p3 : B₂.dropLast ++ r :: Ms₂.flatten = B ++ Ms.flatten := by
          rw [← hflat, ← hsplit]
          simp
        rw [← p3]
        exact p1.trans p2

/-- Claim C5 (amended): once the left side is drained into the build buffer,
the join emits every match exactly once - the emitted rows are a permutation
of the concatenated per-right-row match lists - and if the left side is empty
the join emits no rows; but matches of a single right row are NOT all emitted
before the next right row is consumed (see the counterexample). -/
theorem join_emits_all_matches (pred : Expr) (lsch rsch : Attributes)
    (Lrecs Rrecs : List TupleRecord) (leftBuf : List TupleWithColumnLookup)
    (Ms : List (List TupleRecord)) (fuel : Nat)
    (hpre : preFetchLeft lsch (Lrecs.map .ok) = some (leftBuf, none))
    (hms : List.Forall₂ (rowMatchSpec pred rsch leftBuf) Rrecs Ms)
    (hfuel : Ms.flatten.length + 1 ≤ fuel) :
    ∃ rows,
      joinRun fuel (innerJoinNew pred lsch rsch (Lrecs.map .ok) (Rrecs.map .ok)) =
        rows.map .row ∧
      rows.Perm Ms.flatten ∧
      (Lrecs = [] → rows = []) := by
  cases fuel with
  | zero => omega
  | succ fuel =>
    have hbridge :
        joinRun (fuel + 1) (innerJoinNew pred lsch rsch (Lrecs.map .ok) (Rrecs.map .ok)) =
        joinRun (fuel + 1)
          ⟨pred, lsch, rsch, Lrecs.map .ok, Rrecs.map .ok, leftBuf, [], true⟩ := by
      rw [joinRun, joinRun]
      have h1 : joinNext (innerJoinNew pred lsch rsch (Lrecs.map .ok) (Rrecs.map .ok)) =
          joinNext ⟨pred, lsch, rsch, Lrecs.map .ok, Rrecs.map .ok, leftBuf, [], true⟩ := by
        simp [joinNext, innerJoinNew, hpre]
      rw [h1]
    rw [hbridge]
    obtain ⟨rows, hrun, hperm⟩ :=
      joinRun_from_prefetched pred lsch rsch (Lrecs.map .ok) leftBuf (fuel + 1)
        Rrecs Ms [] hms (by simpa using hfuel)
    refine ⟨rows, hrun, by simpa using hperm, ?_⟩
    intro hLnil
    have hbufnil : leftBuf = [] := by
      rw [hLnil] at hpre
      simp only [List.map_nil, preFetchLeft, Option.some.injEq, Prod.mk.injEq] at hpre
      exact hpre.1.symm
    have hMsnil : Ms.flatten = [] := by
      rw [hbufnil] at hms
      have hall : ∀ {Rr : List TupleRecord} {Msx : List (List TupleRecord)},
          List.Forall₂ (rowMatchSpec pred rsch []) Rr Msx → ∀ ms ∈ Msx, ms = [] := by
        intro Rr Msx h
        induction h with
        | nil => intro ms hmem; simp at hmem
        | cons hhead htail ih =>
          intro ms hmem
          rcases List.mem_cons.mp hmem with rfl | hmem₂
          · obtain ⟨rcols, -, hbm⟩ := hhead
            have h2 := hbm
            simp only [buildMatches, Option.some.injEq] at h2
            exact h2.symm
          · exact ih ms hmem₂
      simp only [List.flatten_eq_nil_iff]
      exact hall hms
    have : rows.Perm [] := by simpa [hMsnil] using hperm
    exact this.eq_nil

/-- Witness for the amended claim C5 at one left row `1` and one right row
`10` under an always-true predicate. -/
theorem join_emits_all_matches_witness :
    preFetchLeft [([97], .Integer)] ([serialize_tuple [.integer 1]].map .ok) =
      some ([{ tuple := serialize_tuple [.integer 1],
               columns := [([97], .integer 1)] }], none) ∧
    List.Forall₂ (rowMatchSpec (.Literal (.Boolean true)) [([98], .Integer)]
        [{ tuple := serialize_tuple [.integer 1], columns := [([97], .integer 1)] }])
      [serialize_tuple [.integer 10]]
      [[serialize_tuple [.integer 1] ++ serialize_tuple [.integer 10]]] ∧
    (1 : Nat) + 1 + 1 ≤ 3 ∧
    (∃ rows,
      joinRun 3 (innerJoinNew (.Literal (.Boolean true)) [([97], .Integer)]
          [([98], .Integer)] ([serialize_tuple [.integer 1]].map .ok)
          ([serialize_tuple [.integer 10]].map .ok)) =
        rows.map .row ∧
      rows.Perm
        ([[serialize_tuple [.integer 1] ++ serialize_tuple [.integer 10]]] :
          List (List TupleRecord)).flatten ∧
      ([serialize_tuple [.integer 1]] = [] → rows = [])) :=
  ⟨rfl,
    .cons ⟨[([98], .integer 10)], rfl, rfl⟩ .nil,
    by omega,
    join_emits_all_matches (.Literal (.Boolean true)) [([97], .Integer)]
      [([98], .Integer)] [serialize_tuple [.integer 1]] [serialize_tuple [.integer 10]]
      [{ tuple := serialize_tuple [.integer 1], columns := [([97], .integer 1)] }]
      [[serialize_tuple [.integer 1] ++ serialize_tuple [.integer 10]]] 3 rfl
      (.cons ⟨[([98], .integer 10)], rfl, rfl⟩ .nil) (by simp)⟩

end MemDB
